import Mathlib

/-!
Shallow embedding of collectd's `src/sysevent.c` (the sysevent plugin):
a syslog-over-UDP listener that buffers datagrams in a circular buffer
(`sysevent_thread` as producer), drains and dispatches them from the read
callback (`sysevent_read` as consumer), and builds VES-style notification
metadata (`gen_metadata_payload`).

Machine integers stay well within `int` range here (indices bounded by the
ring capacity, severities small), so they are modelled as `Nat`/`Int`
without wraparound.  Timestamps are `Nat` microsecond counts.  External
facilities (libc `snprintf`, the regex engine, the metadata list API) are
modelled by their written contracts where noted.
-/

set_option autoImplicit false

namespace Sysevent

/-- Model of `snprintf(dst, n, "%s", s)` on a buffer pre-zeroed with
`memset`: for `n > 0` at most `n - 1` characters of `s` are copied and the
result is NUL-terminated, so the resulting C string is the first `n - 1`
characters of `s`; for `n = 0` nothing is written and the zeroed buffer
reads back as the empty string. -/
def snprintf_pct_s (n : Nat) (s : String) : String :=
  if n = 0 then "" else s.take (n - 1)

/-- The `priority` string computed by the `switch (sev_num)` statement of
`gen_metadata_payload` (sysevent.c lines 193-213).  Each branch calls
`snprintf(tmp_str, strlen(VALUE), "%s", VALUE)`, i.e. the size argument is
the length of the macro string itself. -/
def priority_string (sev_num : Int) : String :=
  if sev_num = 4 then snprintf_pct_s ("medium".length) "medium"
  else if sev_num = 5 then snprintf_pct_s ("normal".length) "normal"
  else if sev_num = 6 ∨ sev_num = 7 then snprintf_pct_s ("low".length) "low"
  else snprintf_pct_s ("unknown".length) "unknown"

/-! ### Configuration (sysevent_config_* handlers)

`cf_util_get_int` either fails (modelled as `none`) or yields an integer;
the handlers validate the range and either store the value or leave the
previous one untouched and return -1. -/

/-- Regex filter state modelled from the spec.

Modelled from the spec: `ignorelist_create` / `ignorelist_add` /
`ignorelist_match` live in `utils_ignorelist.c`, which is not part of the
source under verification.  Per spec section 4.1 the filter holds an
ordered set of patterns plus an `invert` flag fixed at configuration
time. -/
structure Ignorelist where
  invert : Bool
  patterns : List String
  deriving Repr, DecidableEq

/-- Modelled from the spec: `ignorelist_match` (from `utils_ignorelist.c`,
absent from the source tree) returns 0 when the text is of interest and
nonzero when it is to be ignored.  Spec section 4.1: with zero configured
patterns everything passes; with `invert = false` a text is of interest
iff it matches at least one pattern; with `invert = true` a text is of
interest iff it matches none of the patterns (patterns are exclusions).
The regex engine itself is abstracted as the predicate `mtch pattern
text`. -/
def ignorelist_match (mtch : String → String → Bool) (il : Ignorelist)
    (text : String) : Int :=
  if il.patterns = [] then 0
  else if il.patterns.any (fun p => mtch p text) then
    (if il.invert then 1 else 0)
  else
    (if il.invert then 0 else 1)

/-- The configuration-time mutable globals of sysevent.c that the config
handlers touch: `listen_buffer_size` (default 4096), `buffer_length`
(default 10), `monitor_all_messages` (default 1, here `true`) and the
`ignorelist` pointer (default NULL, here `none`). -/
structure ConfigState where
  listen_buffer_size : Int
  buffer_length : Int
  monitor_all_messages : Bool
  ignorelist : Option Ignorelist
  deriving Repr, DecidableEq

/-- Initial values of the configuration globals. -/
def initialConfig : ConfigState :=
  { listen_buffer_size := 4096
    buffer_length := 10
    monitor_all_messages := true
    ignorelist := none }

/-- `sysevent_config_add_buffer_size` (lines 544-559).  The argument is
the result of `cf_util_get_int` (`none` when that call fails). -/
def sysevent_config_add_buffer_size (cs : ConfigState) (parsed : Option Int) :
    ConfigState × Int :=
  match parsed with
  | none => (cs, -1)
  | some tmp =>
    if 1024 ≤ tmp ∧ tmp ≤ 65535 then
      ({ cs with listen_buffer_size := tmp }, 0)
    else
      (cs, -1)

/-- `sysevent_config_add_buffer_length` (lines 561-575). -/
def sysevent_config_add_buffer_length (cs : ConfigState) (parsed : Option Int) :
    ConfigState × Int :=
  match parsed with
  | none => (cs, -1)
  | some tmp =>
    if 3 ≤ tmp ∧ tmp ≤ 4096 then
      ({ cs with buffer_length := tmp }, 0)
    else
      (cs, -1)

/-- `sysevent_config_add_regex_filter` (lines 577-605), HAVE_REGEX_H
branch.  `valid` abstracts whether `ignorelist_add` accepts the pattern
(the regex compiles).  On the first pattern the ignorelist is created with
`invert = 1`; on success the pattern is appended and
`monitor_all_messages` is cleared. -/
def sysevent_config_add_regex_filter (cs : ConfigState) (valid : Bool)
    (pat : String) : ConfigState × Int :=
  let il := match cs.ignorelist with
    | none => { invert := true, patterns := [] : Ignorelist }
    | some il => il
  if valid then
    ({ cs with
        ignorelist := some { il with patterns := il.patterns ++ [pat] }
        monitor_all_messages := false }, 0)
  else
    ({ cs with ignorelist := some il }, 1)

/-- One child block of the sysevent configuration, as dispatched by
`sysevent_config` (lines 607-626).  Integer-valued options carry the
result of `cf_util_get_int`; the regex option carries the validity of the
pattern. -/
inductive ConfigChild where
  | listen (ok : Bool) (ip port : String)
  | bufferSize (parsed : Option Int)
  | bufferLength (parsed : Option Int)
  | regexFilter (valid : Bool) (pat : String)
  | unknown (key : String)
  deriving Repr

/-- `sysevent_config` (lines 607-626): dispatches each child to its
handler, ignoring the handlers' return values, and always returns 0.
(`Listen` only sets `listen_ip`/`listen_port`, which are not part of
`ConfigState`.) -/
def sysevent_config (cs : ConfigState) (children : List ConfigChild) :
    ConfigState × Int :=
  (children.foldl
    (fun cs child =>
      match child with
      | .listen _ _ _ => cs
      | .bufferSize parsed => (sysevent_config_add_buffer_size cs parsed).1
      | .bufferLength parsed => (sysevent_config_add_buffer_length cs parsed).1
      | .regexFilter valid pat =>
        (sysevent_config_add_regex_filter cs valid pat).1
      | .unknown _ => cs)
    cs, 0)

/-! ### Ring buffer (circbuf_t) -/

/-- The circular buffer `circbuf_t` (lines 96-102).  `buffer` and
`timestamp` are the two `maxLen`-element arrays allocated by
`sysevent_init`; slot contents are the received datagram text (always
NUL-terminated and shorter than `listen_buffer_size`, so the `strncpy` in
the producer copies it whole). -/
structure Circbuf where
  head : Nat
  tail : Nat
  maxLen : Nat
  buffer : List String
  timestamp : List Nat
  deriving Repr, DecidableEq

/-- Ring initialization performed by `sysevent_init` (lines 475-485):
`head = tail = 0`, `maxLen = buffer_length`, and the two slot arrays
allocated with `buffer_length` entries (malloc'd contents modelled as
empty/zero since no slot is read before it is written). -/
def sysevent_init_ring (buffer_length : Nat) : Circbuf :=
  { head := 0
    tail := 0
    maxLen := buffer_length
    buffer := List.replicate buffer_length ""
    timestamp := List.replicate buffer_length 0 }

/-- The push performed by one iteration of `sysevent_thread` after a
successful in-bounds `recvfrom` (lines 345-358): compute `next = head + 1`
wrapped at `maxLen`; if `next == tail` the ring is full and the message is
dropped with a warning (no state change); otherwise write the text and
timestamp into slot `head` and advance `head`.  The returned `Bool` is
`true` when the message was stored. -/
def sysevent_thread_push (r : Circbuf) (msg : String) (ts : Nat) :
    Circbuf × Bool :=
  let next := if r.head + 1 ≥ r.maxLen then 0 else r.head + 1
  if next = r.tail then
    (r, false)
  else
    ({ r with
        buffer := r.buffer.set r.head msg
        timestamp := r.timestamp.set r.head ts
        head := next }, true)

/-- Folding a sequence of producer pushes (each a `sysevent_thread`
iteration) over the ring, discarding the per-push accepted/rejected
flags. -/
def pushAll (r : Circbuf) (msgs : List (String × Nat)) : Circbuf :=
  msgs.foldl (fun r p => (sysevent_thread_push r p.1 p.2).1) r

/-- The drain loop of `sysevent_read` (lines 774-862): while
`head != tail`, read slot `tail` (text and timestamp), decide `is_match`,
dispatch when it matches, and advance `tail` with wraparound.  `keep` is
the per-message `is_match` computation (it does not affect the ring
state).  The fuel argument is an upper bound on the number of iterations;
the loop exits as soon as `head = tail`, and with `fuel ≥ maxLen` the fuel
is never exhausted on a ring satisfying the index invariant.  Returns the
final ring and the dispatched `(text, timestamp)` pairs in drain order. -/
def sysevent_read_loop (keep : String → Bool) :
    Nat → Circbuf → List (String × Nat) → Circbuf × List (String × Nat)
  | 0, r, acc => (r, acc.reverse)
  | fuel + 1, r, acc =>
    if r.head = r.tail then (r, acc.reverse)
    else
      let msg := r.buffer.getD r.tail ""
      let ts := r.timestamp.getD r.tail 0
      let next := if r.tail + 1 ≥ r.maxLen then 0 else r.tail + 1
      sysevent_read_loop keep fuel { r with tail := next }
        (if keep msg then (msg, ts) :: acc else acc)

/-- Draining the whole ring with no filtering configured
(`monitor_all_messages == 1`, every message kept).   This is the raw FIFO
content of the buffer from `tail` to `head`. -/
def ringDrain (r : Circbuf) : Circbuf × List (String × Nat) :=
  sysevent_read_loop (fun _ => true) r.maxLen r []

/-- The `is_match` computation of `sysevent_read` for one drained message
(lines 776, 818-836, non-JSON path: the filter subject `match_str` is the
slot text).  `match_str` stays NULL — and the message is kept — unless
`monitor_all_messages == 0`; otherwise the message is kept iff
`ignorelist_match` returns 0.  A NULL ignorelist with filtering enabled
does not occur (the flag is cleared only after the list is created); it is
modelled as keeping the message, matching the spec's match-all default. -/
def read_is_match (mtch : String → String → Bool) (monitor_all : Bool)
    (il : Option Ignorelist) (subject : String) : Bool :=
  if monitor_all then true
  else
    match il with
    | none => true
    | some il => ignorelist_match mtch il subject = 0

/-! ### Event metadata builder (gen_metadata_payload) -/

/-- A metadata value appended by the `plugin_notification_meta_append_*`
family.  Doubles appear only as the literal version constants and are
carried as their source text. -/
inductive MVal where
  | s (v : String)
  | u (v : Nat)
  | dbl (src : String)
  deriving Repr, DecidableEq

/-- The metadata built by `gen_metadata_payload`: the entries appended to
the `ves` header and the entries appended to the nested `syslogFields`
object, each in append order. -/
structure VesPayload where
  header : List (String × MVal)
  domain : List (String × MVal)
  deriving Repr, DecidableEq

/-- One fallible `plugin_notification_meta_append_*` call: `ok key` tells
whether the external append succeeds (returns 0).  On success the entry is
appended; on failure the list is unchanged. -/
def tryAppend (ok : String → Bool) (acc : List (String × MVal)) (k : String)
    (v : MVal) : List (String × MVal) × Bool :=
  if ok k then (acc ++ [(k, v)], true) else (acc, false)

/-- `gen_metadata_payload` (lines 135-311).  Arguments mirror the C
signature (`msg`, `sev`, `sev_num`, `process`, `host`, `timestamp`) plus
the ambient state it touches: the global `event_id` counter and the
current clock reading `nowUs` (for `lastEpochMicrosec`).  `ok` abstracts
which `plugin_notification_meta_append_*` calls succeed, keyed by field
name (`"ves"` for the initial nested add).  The `goto err` paths return
-1, modelled as `none`; success returns the built payload.

Two structural details are kept exactly as written in the source:

* after the `reportingEntityName` append there is no `goto err;`, so the
  following `sequence` append is the body of the failure branch — it runs
  only when the `reportingEntityName` append FAILS, and its own failure is
  what jumps to `err`;
* likewise after the `sourceName` append, so the `startEpochMicrosec`
  append runs only when the `sourceName` append fails.

The `plugin_notification_meta_get_meta_tail` / `get_nested_tail` calls
fetch the container appended immediately before and cannot fail once that
append succeeded; they are not separate failure points here.

The `eventName` snprintf uses size `strlen(host) + 22`, exactly enough for
`"host <host> rsyslog message"` (21 + strlen(host) characters), so no
truncation occurs there.  The `plugin_notification_meta_append_*` family
lives in plugin.c, outside the source under verification; per spec section
4.3 an absent `process`/`severityLabel` yields empty Event fields, not
null-propagated errors, so a NULL string argument is modelled as the empty
string (the `sev == NULL` case is skipped explicitly by the source
itself).  Returns the updated `event_id` and the payload (or `none` for
-1). -/
def gen_metadata_payload (ok : String → Bool) (event_id : Nat) (msg : String)
    (sev : Option String) (sev_num : Int) (process : String) (host : String)
    (timestamp : Nat) (nowUs : Nat) : Nat × Option VesPayload :=
  -- "ves" nested object added to the notification's meta
  if ¬ ok "ves" then (event_id, none)
  else
    -- domain
    let (hdr, okd) := tryAppend ok [] "domain" (.s "syslog")
    if ¬ okd then (event_id, none)
    else
      -- eventId (the global counter is incremented first)
      let event_id' := event_id + 1
      let (hdr, okd) := tryAppend ok hdr "eventId" (.u event_id')
      if ¬ okd then (event_id', none)
      else
        -- eventName
        let event_name := snprintf_pct_s (host.length + 22)
          ("host " ++ host ++ " rsyslog message")
        let (hdr, okd) := tryAppend ok hdr "eventName" (.s event_name)
        if ¬ okd then (event_id', none)
        else
          -- lastEpochMicrosec
          let (hdr, okd) := tryAppend ok hdr "lastEpochMicrosec" (.u nowUs)
          if ¬ okd then (event_id', none)
          else
            -- priority
            let (hdr, okd) := tryAppend ok hdr "priority"
              (.s (priority_string sev_num))
            if ¬ okd then (event_id', none)
            else
              -- reportingEntityName; on FAILURE the dangling `sequence`
              -- append runs, and only its failure goes to err
              let (hdr, okr) := tryAppend ok hdr "reportingEntityName"
                (.s "collectd sysevent plugin")
              let (hdr, okSeqPath) :=
                if okr then (hdr, true)
                else
                  let (hdr2, oks) := tryAppend ok hdr "sequence" (.u 0)
                  (hdr2, oks)
              if ¬ okSeqPath then (event_id', none)
              else
                -- sourceName; on FAILURE the dangling `startEpochMicrosec`
                -- append runs, and only its failure goes to err
                let (hdr, okn) := tryAppend ok hdr "sourceName" (.s process)
                let (hdr, okStartPath) :=
                  if okn then (hdr, true)
                  else
                    let (hdr2, oke) :=
                      tryAppend ok hdr "startEpochMicrosec" (.u timestamp)
                    (hdr2, oke)
                if ¬ okStartPath then (event_id', none)
                else
                  -- version
                  let (hdr, okd) := tryAppend ok hdr "version" (.dbl "1.0")
                  if ¬ okd then (event_id', none)
                  else
                    -- nested syslogFields object appended to the header
                    if ¬ ok "syslogFields" then (event_id', none)
                    else
                      -- eventSourceHost
                      let (dom, okd) := tryAppend ok [] "eventSourceHost"
                        (.s host)
                      if ¬ okd then (event_id', none)
                      else
                        let (dom, okd) := tryAppend ok dom "eventSourceType"
                          (.s "host")
                        if ¬ okd then (event_id', none)
                        else
                          let (dom, okd) := tryAppend ok dom
                            "syslogFieldsVersion" (.dbl "1.0")
                          if ¬ okd then (event_id', none)
                          else
                            let (dom, okd) := tryAppend ok dom "syslogMsg"
                              (.s msg)
                            if ¬ okd then (event_id', none)
                            else
                              let (dom, okd) := tryAppend ok dom "syslogProc"
                                (.s process)
                              if ¬ okd then (event_id', none)
                              else
                                -- syslogSev only when sev is non-NULL
                                let (dom, okSev) :=
                                  match sev with
                                  | none => (dom, true)
                                  | some sv =>
                                    tryAppend ok dom "syslogSev" (.s sv)
                                if ¬ okSev then (event_id', none)
                                else
                                  let (dom, okd) := tryAppend ok dom
                                    "syslogTag" (.s "NILVALUE")
                                  if ¬ okd then (event_id', none)
                                  else
                                    (event_id',
                                     some { header := hdr, domain := dom })

/-- `sysevent_dispatch_notification` (lines 628-740), non-JSON path
(`node == NULL`, or the plugin built without yajl): it builds the
notification, calls `gen_metadata_payload(message, NULL, -1, NULL,
hostname_g, timestamp, &n)` WITHOUT checking its return value, and then
unconditionally calls `plugin_dispatch_notification(&n)`.  The returned
`Bool` records that the notification was dispatched — it is `true` on
every path, because the source never branches on the builder's result. -/
def sysevent_dispatch_notification (ok : String → Bool) (event_id : Nat)
    (message : String) (hostname_g : String) (timestamp : Nat) (nowUs : Nat) :
    Nat × Option VesPayload × Bool :=
  let r := gen_metadata_payload ok event_id message none (-1) "" hostname_g
    timestamp nowUs
  (r.1, r.2, true)

/-! ### Listener lifecycle and the read entry point -/

/-- The listener-thread globals guarded by `sysevent_lock`:
`sysevent_thread_loop` and `sysevent_thread_error` (lines 109-110). -/
structure ListenerState where
  thread_loop : Int
  thread_error : Int
  deriving Repr, DecidableEq

/-- An observable action of the consumer entry point: acquiring or
releasing `sysevent_lock`, or dispatching one notification (with the
message text and its ring timestamp). -/
inductive ReadEvent where
  | lockAcquire
  | lockRelease
  | dispatch (msg : String) (ts : Nat)
  deriving Repr, DecidableEq

/-- `stop_thread(shutdown := 0)` (lines 413-464), the non-forced path used
by the self-healing restart: if the thread is not running, return -1
immediately; otherwise clear `thread_loop`, join the thread (join assumed
to succeed), clear `thread_error`, and return 0.  Also returns the lock
acquisitions it performs. -/
def stop_thread_nonforced (s : ListenerState) :
    ListenerState × Int × List ReadEvent :=
  if s.thread_loop = 0 then
    (s, -1, [.lockAcquire, .lockRelease])
  else
    ({ thread_loop := 0, thread_error := 0 }, 0,
     [.lockAcquire, .lockRelease, .lockAcquire, .lockRelease])

/-- `start_thread` (lines 383-411): no-op returning 0 if the loop flag is
already set; otherwise set `thread_loop := 1`, `thread_error := 0` and
spawn the thread (creation assumed to succeed). -/
def start_thread (s : ListenerState) : ListenerState × Int × List ReadEvent :=
  if s.thread_loop ≠ 0 then
    (s, 0, [.lockAcquire, .lockRelease])
  else
    ({ thread_loop := 1, thread_error := 0 }, 0, [.lockAcquire, .lockRelease])

/-- The whole plugin state touched by `sysevent_read`. -/
structure PluginState where
  ring : Circbuf
  listener : ListenerState
  deriving Repr, DecidableEq

/-- `sysevent_read` (lines 742-881).  If `sysevent_thread_error` is
nonzero: log, `stop_thread(0)`, `start_thread()`, and return -1 without
touching the ring.  Otherwise: acquire `sysevent_lock` once, run the drain
loop to completion (dispatching each message that passes the `is_match`
filter), release the lock, and return 0.  The filter inputs (`mtch`,
`monitor_all`, `il`) are the configuration in effect; the returned trace
interleaves the lock operations and the dispatches in program order. -/
def sysevent_read (mtch : String → String → Bool) (monitor_all : Bool)
    (il : Option Ignorelist) (s : PluginState) :
    PluginState × Int × List ReadEvent :=
  if s.listener.thread_error ≠ 0 then
    let (l1, _, ev1) := stop_thread_nonforced s.listener
    let (l2, _, ev2) := start_thread l1
    ({ s with listener := l2 }, -1, ev1 ++ ev2)
  else
    let keep := read_is_match mtch monitor_all il
    let (ring', out) := sysevent_read_loop keep s.ring.maxLen s.ring []
    ({ s with ring := ring' }, 0,
     [.lockAcquire] ++ out.map (fun p => .dispatch p.1 p.2) ++ [.lockRelease])

/-- Number of occupied slots: the forward distance from `tail` to `head`
with wraparound, i.e. the number of iterations the drain loop will
perform. -/
def ringDist (r : Circbuf) : Nat :=
  if r.tail ≤ r.head then r.head - r.tail else r.head + r.maxLen - r.tail

/-! ## Helper lemmas -/

/-- The drain-loop accumulator only prepends: the dispatched list is the
reversed accumulator followed by the run from an empty accumulator. -/
theorem sysevent_read_loop_append (keep : String → Bool) (fuel : Nat) :
    ∀ (r : Circbuf) (acc : List (String × Nat)),
    (sysevent_read_loop keep fuel r acc).2
      = acc.reverse ++ (sysevent_read_loop keep fuel r []).2 := by
  induction fuel with
  | zero => intro r acc; simp [sysevent_read_loop]
  | succ fuel ih =>
    intro r acc
    by_cases h : r.head = r.tail
    · simp [sysevent_read_loop, h]
    · simp only [sysevent_read_loop, if_neg h]
      by_cases hk : keep (r.buffer.getD r.tail "")
      · simp only [hk, if_pos, if_true]
        rw [ih _ ((r.buffer.getD r.tail "", r.timestamp.getD r.tail 0) :: acc),
          ih _ [(r.buffer.getD r.tail "", r.timestamp.getD r.tail 0)]]
        simp
      · simp only [hk, if_false, Bool.false_eq_true, if_neg]
        exact ih _ acc

/-- Given the index invariant and enough fuel, the drain loop runs to
completion: the final ring is the input ring with `tail` moved to `head`
(every buffered message consumed, nothing else changed). -/
theorem sysevent_read_loop_tail_eq_head (keep : String → Bool) (fuel : Nat) :
    ∀ (r : Circbuf) (acc : List (String × Nat)),
    r.head < r.maxLen → r.tail < r.maxLen → ringDist r < fuel →
    (sysevent_read_loop keep fuel r acc).1 = { r with tail := r.head } := by
  induction fuel with
  | zero => intro r acc hh ht hd; exact absurd hd (Nat.not_lt_zero _)
  | succ fuel ih =>
    intro r acc hh ht hd
    by_cases h : r.head = r.tail
    · cases r with
      | mk head tail maxLen buffer timestamp =>
        simp only [sysevent_read_loop, if_pos h]
        simp_all
    · simp only [sysevent_read_loop, if_neg h]
      have hnext : (if r.tail + 1 ≥ r.maxLen then 0 else r.tail + 1) < r.maxLen := by
        split <;> omega
      have hdist : ringDist { r with
          tail := if r.tail + 1 ≥ r.maxLen then 0 else r.tail + 1 } < fuel := by
        simp only [ringDist] at hd ⊢
        split at hd <;> split <;> split <;> omega
      exact ih _ _ hh hnext hdist

/-- Ordered contents of a non-wrapped drain: when `tail ≤ head < maxLen`,
the loop consumes slots `tail, tail+1, ..., head-1` in order, keeps the
ones passing the filter, and finishes with `tail = head`. -/
theorem sysevent_read_loop_run (keep : String → Bool) (fuel : Nat) :
    ∀ (r : Circbuf) (acc : List (String × Nat)),
    r.tail ≤ r.head → r.head < r.maxLen → r.head - r.tail ≤ fuel →
    sysevent_read_loop keep fuel r acc
      = ({ r with tail := r.head },
         acc.reverse ++ (((List.range (r.head - r.tail)).map (fun i =>
             (r.buffer.getD (r.tail + i) "",
              r.timestamp.getD (r.tail + i) 0))).filter
           (fun p => keep p.1))) := by
  induction fuel with
  | zero =>
    intro r acc hth hh hf
    have heq : r.head = r.tail := by omega
    cases r with
    | mk head tail maxLen buffer timestamp =>
      simp_all [sysevent_read_loop]
  | succ fuel ih =>
    intro r acc hth hh hf
    by_cases h : r.head = r.tail
    · cases r with
      | mk head tail maxLen buffer timestamp =>
        simp_all [sysevent_read_loop]
    · simp only [sysevent_read_loop, if_neg h]
      have htlt : r.tail < r.head := by omega
      have hnext : ¬ r.tail + 1 ≥ r.maxLen := by omega
      simp only [if_neg hnext]
      rw [ih { r with tail := r.tail + 1 } _ (by simp; omega) (by simp [hh])
        (by simp; omega)]
      have hrange : r.head - r.tail = (r.head - (r.tail + 1)) + 1 := by omega
      rw [hrange, List.range_succ_eq_map]
      have harith : ∀ i : Nat, r.tail + 1 + i = r.tail + (i + 1) :=
        fun i => by omega
      by_cases hk : keep (r.buffer.getD r.tail "")
      · simp only [hk, if_true, List.map_cons, List.map_map, List.filter_cons,
          List.reverse_cons, Nat.add_zero, if_pos, List.append_assoc,
          List.cons_append, List.nil_append, Function.comp]
        simp only [harith]
        congr 1
      · simp only [hk, List.map_cons, List.map_map, List.filter_cons,
          Nat.add_zero, Bool.false_eq_true, if_false, Function.comp]
        simp only [harith]
        congr 1

/-- Push of a sequence that fits strictly below the full mark, starting
from `tail = 0`: every push is accepted, `head` advances by the number of
messages, and message `i` lands in slot `head + i` while slots below the
initial `head` are untouched. -/
theorem pushAll_run (msgs : List (String × Nat)) :
    ∀ (r : Circbuf), r.tail = 0 → r.buffer.length = r.maxLen →
    r.timestamp.length = r.maxLen → r.head + msgs.length < r.maxLen →
    (pushAll r msgs).tail = 0 ∧ (pushAll r msgs).maxLen = r.maxLen ∧
    (pushAll r msgs).head = r.head + msgs.length ∧
    (pushAll r msgs).buffer.length = r.maxLen ∧
    (pushAll r msgs).timestamp.length = r.maxLen ∧
    (∀ j, j < r.head →
      (pushAll r msgs).buffer.getD j "" = r.buffer.getD j "" ∧
      (pushAll r msgs).timestamp.getD j 0 = r.timestamp.getD j 0) ∧
    (∀ i, i < msgs.length →
      (pushAll r msgs).buffer.getD (r.head + i) "" = (msgs.getD i ("", 0)).1 ∧
      (pushAll r msgs).timestamp.getD (r.head + i) 0
        = (msgs.getD i ("", 0)).2) := by
  induction msgs with
  | nil =>
    intro r ht hb htl hlen
    refine ⟨ht, rfl, by simp [pushAll], hb, htl, fun j hj => ⟨rfl, rfl⟩,
      fun i hi => absurd hi (by simp)⟩
  | cons p rest ih =>
    intro r ht hb htl hlen
    have hlen' : r.head + 1 + rest.length < r.maxLen := by
      simp only [List.length_cons] at hlen; omega
    have hnotfull : ¬ r.head + 1 ≥ r.maxLen := by omega
    have hne : ¬ r.head + 1 = r.tail := by omega
    have hstep : pushAll r (p :: rest)
        = pushAll { r with
            buffer := r.buffer.set r.head p.1
            timestamp := r.timestamp.set r.head p.2
            head := r.head + 1 } rest := by
      simp only [pushAll, List.foldl_cons, sysevent_thread_push,
        if_neg hnotfull, if_neg hne]
    have hhead : r.head < r.buffer.length := by omega
    have hheadt : r.head < r.timestamp.length := by omega
    obtain ⟨c1, c2, c3, c4, c5, c6, c7⟩ := ih
      { r with
        buffer := r.buffer.set r.head p.1
        timestamp := r.timestamp.set r.head p.2
        head := r.head + 1 }
      ht (by simpa using hb) (by simpa using htl) (by simpa using hlen')
    rw [hstep]
    refine ⟨c1, c2, by rw [c3]; simp [List.length_cons]; omega, c4, c5,
      ?_, ?_⟩
    · intro j hj
      have hj1 : j < r.head + 1 := by omega
      obtain ⟨e1, e2⟩ := c6 j hj1
      refine ⟨?_, ?_⟩
      · rw [e1, List.getD_eq_getElem _ _ (by simpa using (by omega : j < r.buffer.length)),
          List.getElem_set_ne (by omega),
          ← List.getD_eq_getElem _ _ (by omega : j < r.buffer.length)]
      · rw [e2, List.getD_eq_getElem _ _ (by simpa using (by omega : j < r.timestamp.length)),
          List.getElem_set_ne (by omega),
          ← List.getD_eq_getElem _ _ (by omega : j < r.timestamp.length)]
    · intro i hi
      cases i with
      | zero =>
        obtain ⟨e1, e2⟩ := c6 r.head (Nat.lt_succ_self r.head)
        refine ⟨?_, ?_⟩
        · simp only [Nat.add_zero]
          rw [e1, List.getD_eq_getElem _ _ (by simpa using hhead),
            List.getElem_set_self]
          simp
        · simp only [Nat.add_zero]
          rw [e2, List.getD_eq_getElem _ _ (by simpa using hheadt),
            List.getElem_set_self]
          simp
      | succ i =>
        simp only [List.length_cons] at hi
        obtain ⟨e1, e2⟩ := c7 i (by omega)
        have harith : r.head + 1 + i = r.head + (i + 1) := by omega
        rw [harith] at e1 e2
        exact ⟨by rw [e1]; simp, by rw [e2]; simp⟩

/-- The drain loop never touches `head`, `maxLen` or the slot arrays, and
keeps `tail` inside `[0, maxLen)`, for any fuel. -/
theorem sysevent_read_loop_inv (keep : String → Bool) (fuel : Nat) :
    ∀ (r : Circbuf) (acc : List (String × Nat)),
    r.head < r.maxLen → r.tail < r.maxLen →
    (sysevent_read_loop keep fuel r acc).1.head = r.head ∧
    (sysevent_read_loop keep fuel r acc).1.maxLen = r.maxLen ∧
    (sysevent_read_loop keep fuel r acc).1.buffer = r.buffer ∧
    (sysevent_read_loop keep fuel r acc).1.timestamp = r.timestamp ∧
    (sysevent_read_loop keep fuel r acc).1.tail < r.maxLen := by
  induction fuel with
  | zero => intro r acc hh ht; exact ⟨rfl, rfl, rfl, rfl, ht⟩
  | succ fuel ih =>
    intro r acc hh ht
    by_cases h : r.head = r.tail
    · simp [sysevent_read_loop, if_pos h, ht]
    · simp only [sysevent_read_loop, if_neg h]
      refine ih _ _ hh ?_
      show (if r.tail + 1 ≥ r.maxLen then 0 else r.tail + 1) < r.maxLen
      split <;> omega

/-- A push against a full ring (`next == tail`) is rejected and leaves
the ring bit-for-bit unchanged. -/
theorem sysevent_thread_push_full (r : Circbuf) (m : String) (t : Nat)
    (h : (if r.head + 1 ≥ r.maxLen then 0 else r.head + 1) = r.tail) :
    sysevent_thread_push r m t = (r, false) := by
  simp only [sysevent_thread_push, if_pos h]

/-- Any further sequence of pushes against a full ring is a no-op. -/
theorem pushAll_full (msgs : List (String × Nat)) :
    ∀ (r : Circbuf),
    (if r.head + 1 ≥ r.maxLen then 0 else r.head + 1) = r.tail →
    pushAll r msgs = r := by
  induction msgs with
  | nil => intro r _; rfl
  | cons p rest ih =>
    intro r h
    show pushAll (sysevent_thread_push r p.1 p.2).1 rest = r
    rw [sysevent_thread_push_full r p.1 p.2 h]
    exact ih r h

/-- FIFO round trip: pushing fewer messages than `capacity - 1` into the
freshly initialized ring and then draining it returns exactly the pushed
`(text, timestamp)` sequence. -/
theorem ringDrain_pushAll_init (N : Nat) (msgs : List (String × Nat))
    (hlen : msgs.length < N) :
    (ringDrain (pushAll (sysevent_init_ring N) msgs)).2 = msgs := by
  obtain ⟨c1, c2, c3, c4, c5, c6, c7⟩ := pushAll_run msgs (sysevent_init_ring N)
    rfl (by simp [sysevent_init_ring]) (by simp [sysevent_init_ring])
    (by simpa [sysevent_init_ring] using hlen)
  have hmax : (pushAll (sysevent_init_ring N) msgs).maxLen = N := c2
  have hhead : (pushAll (sysevent_init_ring N) msgs).head = msgs.length := by
    rw [c3]; simp [sysevent_init_ring]
  rw [ringDrain, sysevent_read_loop_run (fun _ => true) _ _ []
    (by rw [c1]; omega) (by rw [hhead, hmax]; omega)
    (by rw [hhead, hmax, c1]; omega)]
  simp only [List.reverse_nil, List.nil_append, List.filter_true]
  apply List.ext_getElem
  · simp [hhead, c1]
  · intro i h1 h2
    simp only [List.getElem_map, List.getElem_range, c1, Nat.zero_add]
    have hi : i < msgs.length := by
      simpa [hhead, c1] using h1
    obtain ⟨s1, s2⟩ := c7 i hi
    have hz : (sysevent_init_ring N).head + i = i := by
      simp [sysevent_init_ring]
    rw [hz] at s1 s2
    rw [s1, s2, List.getD_eq_getElem _ _ (by omega)]

/-- The occupied-slot count is always below the capacity, so the capacity
is always enough fuel for the drain loop. -/
theorem ringDist_lt_maxLen (r : Circbuf) (hh : r.head < r.maxLen)
    (ht : r.tail < r.maxLen) : ringDist r < r.maxLen := by
  simp only [ringDist]; split <;> omega

/-- The messages dispatched by a filtered drain are exactly the unfiltered
drain of the same ring restricted to the messages the filter keeps. -/
theorem sysevent_read_loop_filter (keep : String → Bool) (fuel : Nat) :
    ∀ (r : Circbuf),
    (sysevent_read_loop keep fuel r []).2
      = ((sysevent_read_loop (fun _ => true) fuel r []).2).filter
          (fun q => keep q.1) := by
  induction fuel with
  | zero => intro r; simp [sysevent_read_loop]
  | succ fuel ih =>
    intro r
    by_cases h : r.head = r.tail
    · simp [sysevent_read_loop, h]
    · simp only [sysevent_read_loop, if_neg h, if_true]
      rw [sysevent_read_loop_append keep fuel,
        sysevent_read_loop_append (fun _ => true) fuel]
      by_cases hk : keep ((r.buffer[r.tail]?).getD "") <;> simp [hk, ih]

/-- Folding further valid `RegexFilter` blocks over a configuration that
already holds an ignorelist appends the patterns in order and keeps
`monitor_all_messages` cleared. -/
theorem regex_filter_fold (ps : List String) :
    ∀ (cs : ConfigState) (il : Ignorelist), cs.ignorelist = some il →
    cs.monitor_all_messages = false →
    (ps.foldl (fun cs q => (sysevent_config_add_regex_filter cs true q).1)
        cs).ignorelist = some { il with patterns := il.patterns ++ ps } ∧
    (ps.foldl (fun cs q => (sysevent_config_add_regex_filter cs true q).1)
        cs).monitor_all_messages = false := by
  induction ps with
  | nil => intro cs il h hm; simpa using ⟨h, hm⟩
  | cons q rest ih =>
    intro cs il h hm
    have hstep : (sysevent_config_add_regex_filter cs true q).1
        = { cs with
            ignorelist := some { il with patterns := il.patterns ++ [q] }
            monitor_all_messages := false } := by
      simp [sysevent_config_add_regex_filter, h]
    simp only [List.foldl_cons, hstep]
    obtain ⟨h1, h2⟩ := ih
      { cs with
        ignorelist := some { il with patterns := il.patterns ++ [q] }
        monitor_all_messages := false }
      { il with patterns := il.patterns ++ [q] } rfl rfl
    refine ⟨?_, h2⟩
    rw [h1]
    simp

/-! ## Claims -/

/-- C1: the claim states that the priority string written by
`gen_metadata_payload` is exactly one of "medium", "normal", "low",
"unknown" by the table 4/5/{6,7}/default.  The branches are laid out as
claimed, but each `snprintf` passes `strlen(VALUE)` as the buffer size, so
`snprintf` truncates the copy to `strlen(VALUE) - 1` characters: the code
actually writes "mediu", "norma", "lo" and "unknow" — the intended
constants (the `SYSEVENT_PRIORITY_VALUE_*` macros) each lose their final
character. -/
theorem C1_priority_truncated :
    priority_string 4 = "mediu" ∧ priority_string 4 ≠ "medium" ∧
    priority_string 5 = "norma" ∧ priority_string 5 ≠ "normal" ∧
    priority_string 6 = "lo" ∧ priority_string 7 = "lo" ∧
    priority_string 7 ≠ "low" ∧
    priority_string (-1) = "unknow" ∧ priority_string 0 = "unknow" ∧
    priority_string 0 ≠ "unknown" := by
  decide

/-- C9: a `BufferSize` outside [1024, 65535] or a `BufferLength` outside
[3, 4096] is rejected: the handler returns -1 and the previous value
(defaults 4096 and 10) stays in effect, so `sysevent_config` leaves the
configuration state unchanged and the plugin cannot start with the
out-of-range setting; an in-range value is stored with return 0. -/
theorem C9_buffer_range_validation (cs : ConfigState) (v w : Int) :
    (¬ (1024 ≤ v ∧ v ≤ 65535) →
      sysevent_config_add_buffer_size cs (some v) = (cs, -1)) ∧
    ((1024 ≤ v ∧ v ≤ 65535) →
      sysevent_config_add_buffer_size cs (some v)
        = ({ cs with listen_buffer_size := v }, 0)) ∧
    (¬ (3 ≤ w ∧ w ≤ 4096) →
      sysevent_config_add_buffer_length cs (some w) = (cs, -1)) ∧
    ((3 ≤ w ∧ w ≤ 4096) →
      sysevent_config_add_buffer_length cs (some w)
        = ({ cs with buffer_length := w }, 0)) ∧
    sysevent_config_add_buffer_size cs none = (cs, -1) ∧
    sysevent_config_add_buffer_length cs none = (cs, -1) ∧
    initialConfig.listen_buffer_size = 4096 ∧
    initialConfig.buffer_length = 10 ∧
    (¬ (1024 ≤ v ∧ v ≤ 65535) →
      (sysevent_config cs [.bufferSize (some v)]).1 = cs) ∧
    (¬ (3 ≤ w ∧ w ≤ 4096) →
      (sysevent_config cs [.bufferLength (some w)]).1 = cs) := by
  refine ⟨fun h => ?_, fun h => ?_, fun h => ?_, fun h => ?_, rfl, rfl, rfl,
    rfl, fun h => ?_, fun h => ?_⟩ <;>
    simp [sysevent_config_add_buffer_size, sysevent_config_add_buffer_length,
      sysevent_config, h]

/-- Witness for C9 at concrete inputs: 70000 and 2 are rejected leaving
the defaults, 2048 and 16 are accepted and stored. -/
theorem C9_buffer_range_validation_witness :
    sysevent_config_add_buffer_size initialConfig (some 70000)
      = (initialConfig, -1) ∧
    sysevent_config_add_buffer_size initialConfig (some 2048)
      = ({ initialConfig with listen_buffer_size := 2048 }, 0) ∧
    sysevent_config_add_buffer_length initialConfig (some 2)
      = (initialConfig, -1) ∧
    sysevent_config_add_buffer_length initialConfig (some 16)
      = ({ initialConfig with buffer_length := 16 }, 0) ∧
    (sysevent_config initialConfig [.bufferSize (some 70000)]).1
      = initialConfig :=
  ⟨(C9_buffer_range_validation initialConfig 70000 2).1 (by decide),
   ((C9_buffer_range_validation initialConfig 2048 16).2.1 (by decide)),
   ((C9_buffer_range_validation initialConfig 2048 2).2.2.1 (by decide)),
   ((C9_buffer_range_validation initialConfig 2048 16).2.2.2.1 (by decide)),
   ((C9_buffer_range_validation initialConfig 70000 2).2.2.2.2.2.2.2.2.1
     (by decide))⟩

/-- C5: for any sequence of at most `capacity - 1` pushes into the freshly
initialized ring followed by one drain, the drained `(text, timestamp)`
sequence equals the pushed sequence in the same order (FIFO). -/
theorem C5_fifo_order (N : Nat) (msgs : List (String × Nat))
    (hlen : msgs.length < N) :
    (ringDrain (pushAll (sysevent_init_ring N) msgs)).2 = msgs :=
  ringDrain_pushAll_init N msgs hlen

/-- Witness for C5: pushing m1, m2, m3 into a ring of capacity 5 and
draining returns them in order. -/
theorem C5_fifo_order_witness :
    ([("m1", 1), ("m2", 2), ("m3", 3)] : List (String × Nat)).length < 5 ∧
    (ringDrain (pushAll (sysevent_init_ring 5)
        [("m1", 1), ("m2", 2), ("m3", 3)])).2
      = [("m1", 1), ("m2", 2), ("m3", 3)] :=
  ⟨by decide, C5_fifo_order 5 [("m1", 1), ("m2", 2), ("m3", 3)] (by decide)⟩

/-- C4: pushing `capacity` or more messages into the freshly initialized
ring with no intervening drain retains exactly the oldest `capacity - 1`
messages in arrival order (the drain returns them), every subsequent push
is rejected with the buffer-full condition, and a rejected push changes
nothing — the state after all pushes equals the state after the first
`capacity - 1`, and a further push returns the ring unchanged with
`false`. -/
theorem C4_bounded_loss (N : Nat) (msgs : List (String × Nat))
    (hN : 1 ≤ N) (hlen : N ≤ msgs.length) :
    pushAll (sysevent_init_ring N) msgs
      = pushAll (sysevent_init_ring N) (msgs.take (N - 1)) ∧
    (ringDrain (pushAll (sysevent_init_ring N) msgs)).2 = msgs.take (N - 1) ∧
    (∀ m t, sysevent_thread_push (pushAll (sysevent_init_ring N) msgs) m t
      = (pushAll (sysevent_init_ring N) msgs, false)) := by
  have htake : (msgs.take (N - 1)).length = N - 1 := by
    rw [List.length_take]; omega
  obtain ⟨c1, c2, c3, c4, c5, c6, c7⟩ :=
    pushAll_run (msgs.take (N - 1)) (sysevent_init_ring N) rfl
      (by simp [sysevent_init_ring]) (by simp [sysevent_init_ring])
      (by simp only [sysevent_init_ring, htake]; omega)
  have hhead : (pushAll (sysevent_init_ring N) (msgs.take (N - 1))).head
      = N - 1 := by
    rw [c3, htake]; simp [sysevent_init_ring]
  have hfull : (if (pushAll (sysevent_init_ring N) (msgs.take (N - 1))).head + 1
        ≥ (pushAll (sysevent_init_ring N) (msgs.take (N - 1))).maxLen then 0
      else (pushAll (sysevent_init_ring N) (msgs.take (N - 1))).head + 1)
      = (pushAll (sysevent_init_ring N) (msgs.take (N - 1))).tail := by
    rw [hhead, c1, c2]
    rw [if_pos (by simp [sysevent_init_ring]; omega)]
  have hsplit : pushAll (sysevent_init_ring N) msgs
      = pushAll (sysevent_init_ring N) (msgs.take (N - 1)) := by
    conv_lhs => rw [← List.take_append_drop (N - 1) msgs]
    rw [pushAll, List.foldl_append]
    exact pushAll_full (msgs.drop (N - 1)) _ hfull
  refine ⟨hsplit, ?_, ?_⟩
  · rw [hsplit]
    exact ringDrain_pushAll_init N (msgs.take (N - 1)) (by omega)
  · intro m t
    rw [hsplit]
    exact sysevent_thread_push_full _ m t hfull

/-- Witness for C4, the spec scenario: capacity 3, five pushes, drained
result is the first two messages, the ring is as after two pushes, and a
sixth push is rejected without change. -/
theorem C4_bounded_loss_witness :
    (1 ≤ 3 ∧ 3 ≤ ([("m1", 1), ("m2", 2), ("m3", 3), ("m4", 4), ("m5", 5)] :
      List (String × Nat)).length) ∧
    (ringDrain (pushAll (sysevent_init_ring 3)
        [("m1", 1), ("m2", 2), ("m3", 3), ("m4", 4), ("m5", 5)])).2
      = [("m1", 1), ("m2", 2)] ∧
    sysevent_thread_push (pushAll (sysevent_init_ring 3)
        [("m1", 1), ("m2", 2), ("m3", 3), ("m4", 4), ("m5", 5)]) "m6" 6
      = (pushAll (sysevent_init_ring 3)
        [("m1", 1), ("m2", 2), ("m3", 3), ("m4", 4), ("m5", 5)], false) := by
  refine ⟨⟨by decide, by decide⟩, ?_, ?_⟩
  · rw [(C4_bounded_loss 3
      [("m1", 1), ("m2", 2), ("m3", 3), ("m4", 4), ("m5", 5)]
      (by decide) (by decide)).2.1]
    rfl
  · exact (C4_bounded_loss 3
      [("m1", 1), ("m2", 2), ("m3", 3), ("m4", 4), ("m5", 5)]
      (by decide) (by decide)).2.2 "m6" 6

/-- C6: initialization puts `head = tail = 0` with `maxLen` equal to the
configured capacity; a push and any number of drain steps keep both
indices inside `[0, capacity)` and never change `maxLen`; the drain
yields nothing exactly when `head == tail` (empty), and a push is rejected
exactly when `(head + 1) mod capacity == tail` (full). -/
theorem C6_ring_invariant (r : Circbuf) (m : String) (t : Nat)
    (keep : String → Bool) (fuel n : Nat)
    (hh : r.head < r.maxLen) (ht : r.tail < r.maxLen) :
    (sysevent_init_ring n).head = 0 ∧ (sysevent_init_ring n).tail = 0 ∧
    (sysevent_init_ring n).maxLen = n ∧
    (sysevent_thread_push r m t).1.head < r.maxLen ∧
    (sysevent_thread_push r m t).1.tail < r.maxLen ∧
    (sysevent_thread_push r m t).1.maxLen = r.maxLen ∧
    (sysevent_read_loop keep fuel r []).1.head < r.maxLen ∧
    (sysevent_read_loop keep fuel r []).1.tail < r.maxLen ∧
    (sysevent_read_loop keep fuel r []).1.maxLen = r.maxLen ∧
    ((ringDrain r).2 = [] ↔ r.head = r.tail) ∧
    ((sysevent_thread_push r m t).2 = false ↔
      (r.head + 1) % r.maxLen = r.tail) := by
  obtain ⟨l1, l2, _, _, l5⟩ := sysevent_read_loop_inv keep fuel r [] hh ht
  have hmod : (r.head + 1) % r.maxLen
      = (if r.head + 1 ≥ r.maxLen then 0 else r.head + 1) := by
    split
    · have he : r.head + 1 = r.maxLen := by omega
      rw [he, Nat.mod_self]
    · exact Nat.mod_eq_of_lt (by omega)
  refine ⟨rfl, rfl, rfl, ?_, ?_, ?_, by rw [l1]; exact hh, l5, l2, ?_, ?_⟩
  · by_cases hc : (if r.head + 1 ≥ r.maxLen then 0 else r.head + 1) = r.tail
    · simpa [sysevent_thread_push, hc] using hh
    · simp only [sysevent_thread_push, if_neg hc]
      split <;> omega
  · by_cases hc : (if r.head + 1 ≥ r.maxLen then 0 else r.head + 1) = r.tail
    · simpa [sysevent_thread_push, hc] using ht
    · simpa [sysevent_thread_push, if_neg hc] using ht
  · by_cases hc : (if r.head + 1 ≥ r.maxLen then 0 else r.head + 1) = r.tail
    · simp [sysevent_thread_push, hc]
    · simp [sysevent_thread_push, if_neg hc]
  · constructor
    · intro hnil
      by_contra hne
      have hm1 : ∃ k, r.maxLen = k + 1 := ⟨r.maxLen - 1, by omega⟩
      obtain ⟨k, hk⟩ := hm1
      rw [ringDrain, hk] at hnil
      rw [show sysevent_read_loop (fun _ => true) (k + 1) r []
          = sysevent_read_loop (fun _ => true) k
            { r with tail := if r.tail + 1 ≥ r.maxLen then 0 else r.tail + 1 }
            [(r.buffer.getD r.tail "", r.timestamp.getD r.tail 0)] from by
        simp [sysevent_read_loop, hne]] at hnil
      rw [sysevent_read_loop_append (fun _ => true) k _
        [(r.buffer.getD r.tail "", r.timestamp.getD r.tail 0)]] at hnil
      simp at hnil
    · intro he
      cases hfuel : r.maxLen with
      | zero => simp [ringDrain, hfuel, sysevent_read_loop]
      | succ k => simp [ringDrain, hfuel, sysevent_read_loop, he]
  · rw [hmod]
    by_cases hc : (if r.head + 1 ≥ r.maxLen then 0 else r.head + 1) = r.tail
    · simp [sysevent_thread_push, hc]
    · simp [sysevent_thread_push, if_neg hc, hc]

/-- Witness for C6 at a concrete ring of capacity 3 holding one message. -/
theorem C6_ring_invariant_witness :
    ((⟨1, 0, 3, ["a", "", ""], [7, 0, 0]⟩ : Circbuf).head < 3 ∧
     (⟨1, 0, 3, ["a", "", ""], [7, 0, 0]⟩ : Circbuf).tail < 3) ∧
    ((sysevent_init_ring 4).head = 0 ∧ (sysevent_init_ring 4).tail = 0 ∧
    (sysevent_init_ring 4).maxLen = 4 ∧
    (sysevent_thread_push ⟨1, 0, 3, ["a", "", ""], [7, 0, 0]⟩ "b" 8).1.head < 3 ∧
    (sysevent_thread_push ⟨1, 0, 3, ["a", "", ""], [7, 0, 0]⟩ "b" 8).1.tail < 3 ∧
    (sysevent_thread_push ⟨1, 0, 3, ["a", "", ""], [7, 0, 0]⟩ "b" 8).1.maxLen = 3 ∧
    (sysevent_read_loop (fun _ => true) 3
      ⟨1, 0, 3, ["a", "", ""], [7, 0, 0]⟩ []).1.head < 3 ∧
    (sysevent_read_loop (fun _ => true) 3
      ⟨1, 0, 3, ["a", "", ""], [7, 0, 0]⟩ []).1.tail < 3 ∧
    (sysevent_read_loop (fun _ => true) 3
      ⟨1, 0, 3, ["a", "", ""], [7, 0, 0]⟩ []).1.maxLen = 3 ∧
    ((ringDrain ⟨1, 0, 3, ["a", "", ""], [7, 0, 0]⟩).2 = [] ↔
      (⟨1, 0, 3, ["a", "", ""], [7, 0, 0]⟩ : Circbuf).head
        = (⟨1, 0, 3, ["a", "", ""], [7, 0, 0]⟩ : Circbuf).tail) ∧
    ((sysevent_thread_push ⟨1, 0, 3, ["a", "", ""], [7, 0, 0]⟩ "b" 8).2 = false ↔
      ((⟨1, 0, 3, ["a", "", ""], [7, 0, 0]⟩ : Circbuf).head + 1) % 3
        = (⟨1, 0, 3, ["a", "", ""], [7, 0, 0]⟩ : Circbuf).tail)) :=
  ⟨⟨by decide, by decide⟩,
   C6_ring_invariant ⟨1, 0, 3, ["a", "", ""], [7, 0, 0]⟩ "b" 8
     (fun _ => true) 3 4 (by decide) (by decide)⟩

/-- C10: with the fault flag clear, `sysevent_read` drains the ring until
`head == tail` (the buffer is empty on return, everything else about the
ring and the listener untouched), returns 0, and performs the whole drain
between exactly one acquisition of `sysevent_lock` and its release;
moreover a producer push never changes `tail`, so the read loop is the
only operation advancing it. -/
theorem C10_read_drains_under_one_lock (mtch : String → String → Bool)
    (monitor_all : Bool) (il : Option Ignorelist) (s : PluginState)
    (r' : Circbuf) (m : String) (t : Nat)
    (herr : s.listener.thread_error = 0)
    (hh : s.ring.head < s.ring.maxLen) (ht : s.ring.tail < s.ring.maxLen) :
    (sysevent_read mtch monitor_all il s).1.ring
      = { s.ring with tail := s.ring.head } ∧
    (sysevent_read mtch monitor_all il s).1.listener = s.listener ∧
    (sysevent_read mtch monitor_all il s).2.1 = 0 ∧
    (sysevent_read mtch monitor_all il s).2.2
      = ReadEvent.lockAcquire ::
        ((sysevent_read_loop (read_is_match mtch monitor_all il)
            s.ring.maxLen s.ring []).2.map
          (fun p => ReadEvent.dispatch p.1 p.2) ++ [ReadEvent.lockRelease]) ∧
    (sysevent_read mtch monitor_all il s).2.2.count ReadEvent.lockAcquire = 1 ∧
    (sysevent_thread_push r' m t).1.tail = r'.tail := by
  have hflag : ¬ s.listener.thread_error ≠ 0 := by omega
  have hloop := sysevent_read_loop_tail_eq_head
    (read_is_match mtch monitor_all il) s.ring.maxLen s.ring [] hh ht
    (ringDist_lt_maxLen s.ring hh ht)
  refine ⟨?_, ?_, ?_, ?_, ?_, ?_⟩
  · simp only [sysevent_read, if_neg hflag]
    exact hloop
  · simp only [sysevent_read, if_neg hflag]
  · simp only [sysevent_read, if_neg hflag]
  · simp only [sysevent_read, if_neg hflag]
    simp
  · simp only [sysevent_read, if_neg hflag]
    simp only [List.cons_append, List.count_cons, List.count_append]
    have hzero : ((sysevent_read_loop (read_is_match mtch monitor_all il)
        s.ring.maxLen s.ring []).2.map
          (fun p => ReadEvent.dispatch p.1 p.2)).count ReadEvent.lockAcquire
        = 0 := by
      rw [List.count_eq_zero]
      simp
    simp [hzero, List.count_eq_zero]
  · by_cases hc : (if r'.head + 1 ≥ r'.maxLen then 0 else r'.head + 1) = r'.tail
    · simp [sysevent_thread_push, hc]
    · simp [sysevent_thread_push, hc]

/-- Witness for C10 at a concrete state: ring of capacity 3 holding two
messages, fault flag clear. -/
theorem C10_read_drains_under_one_lock_witness :
    ((⟨⟨2, 0, 3, ["a", "b", ""], [1, 2, 0]⟩, ⟨1, 0⟩⟩ :
      PluginState).listener.thread_error = 0 ∧
     (2 : Nat) < 3 ∧ (0 : Nat) < 3) ∧
    ((sysevent_read (fun _ _ => false) true none
      ⟨⟨2, 0, 3, ["a", "b", ""], [1, 2, 0]⟩, ⟨1, 0⟩⟩).1.ring
      = ⟨2, 2, 3, ["a", "b", ""], [1, 2, 0]⟩ ∧
    (sysevent_read (fun _ _ => false) true none
      ⟨⟨2, 0, 3, ["a", "b", ""], [1, 2, 0]⟩, ⟨1, 0⟩⟩).2.1 = 0 ∧
    (sysevent_read (fun _ _ => false) true none
      ⟨⟨2, 0, 3, ["a", "b", ""], [1, 2, 0]⟩, ⟨1, 0⟩⟩).2.2
      = [ReadEvent.lockAcquire, ReadEvent.dispatch "a" 1,
         ReadEvent.dispatch "b" 2, ReadEvent.lockRelease] ∧
    (sysevent_read (fun _ _ => false) true none
      ⟨⟨2, 0, 3, ["a", "b", ""], [1, 2, 0]⟩, ⟨1, 0⟩⟩).2.2.count
        ReadEvent.lockAcquire = 1 ∧
    (sysevent_thread_push ⟨1, 0, 3, ["a", "", ""], [7, 0, 0]⟩ "c" 9).1.tail
      = 0) := by
  have h := C10_read_drains_under_one_lock (fun _ _ => false) true none
    ⟨⟨2, 0, 3, ["a", "b", ""], [1, 2, 0]⟩, ⟨1, 0⟩⟩
    ⟨1, 0, 3, ["a", "", ""], [7, 0, 0]⟩ "c" 9 rfl (by decide) (by decide)
  exact ⟨⟨rfl, by decide, by decide⟩,
    h.1, h.2.2.1, by rw [h.2.2.2.1]; rfl, h.2.2.2.2.1, h.2.2.2.2.2⟩

/-- C7: whenever `sysevent_read` is entered with the listener fault flag
nonzero, it performs the non-forced stop followed by a start (leaving the
listener restarted with the flag cleared), returns -1, and neither drains
the ring nor dispatches anything. -/
theorem C7_fault_restart (mtch : String → String → Bool) (monitor_all : Bool)
    (il : Option Ignorelist) (s : PluginState) (m : String) (t : Nat)
    (herr : s.listener.thread_error ≠ 0) :
    (sysevent_read mtch monitor_all il s).2.1 = -1 ∧
    (sysevent_read mtch monitor_all il s).1.ring = s.ring ∧
    (sysevent_read mtch monitor_all il s).1.listener
      = (start_thread (stop_thread_nonforced s.listener).1).1 ∧
    (sysevent_read mtch monitor_all il s).1.listener
      = { thread_loop := 1, thread_error := 0 } ∧
    ReadEvent.dispatch m t ∉ (sysevent_read mtch monitor_all il s).2.2 := by
  by_cases hl : s.listener.thread_loop = 0
  · refine ⟨?_, ?_, ?_, ?_, ?_⟩ <;>
      simp [sysevent_read, herr, stop_thread_nonforced, start_thread, hl]
  · refine ⟨?_, ?_, ?_, ?_, ?_⟩ <;>
      simp [sysevent_read, herr, stop_thread_nonforced, start_thread, hl]

/-- Witness for C7 at a concrete faulted state: one message is buffered
but the tick restarts the listener, returns -1 and dispatches nothing. -/
theorem C7_fault_restart_witness :
    ((⟨⟨1, 0, 3, ["a", "", ""], [7, 0, 0]⟩, ⟨1, 1⟩⟩ :
      PluginState).listener.thread_error ≠ 0) ∧
    ((sysevent_read (fun _ _ => false) true none
      ⟨⟨1, 0, 3, ["a", "", ""], [7, 0, 0]⟩, ⟨1, 1⟩⟩).2.1 = -1 ∧
    (sysevent_read (fun _ _ => false) true none
      ⟨⟨1, 0, 3, ["a", "", ""], [7, 0, 0]⟩, ⟨1, 1⟩⟩).1.ring
      = ⟨1, 0, 3, ["a", "", ""], [7, 0, 0]⟩ ∧
    (sysevent_read (fun _ _ => false) true none
      ⟨⟨1, 0, 3, ["a", "", ""], [7, 0, 0]⟩, ⟨1, 1⟩⟩).1.listener = ⟨1, 0⟩ ∧
    ReadEvent.dispatch "a" 7 ∉ (sysevent_read (fun _ _ => false) true none
      ⟨⟨1, 0, 3, ["a", "", ""], [7, 0, 0]⟩, ⟨1, 1⟩⟩).2.2) := by
  have h := C7_fault_restart (fun _ _ => false) true none
    ⟨⟨1, 0, 3, ["a", "", ""], [7, 0, 0]⟩, ⟨1, 1⟩⟩ "a" 7 (by decide)
  exact ⟨by decide, h.1, h.2.1, h.2.2.2.1, h.2.2.2.2⟩

/-- C2 counterexample: the claim says that when a metadata-append step
fails the build returns nonzero AND no notification is dispatched.  Both
parts fail on concrete inputs.  First, with the `domain` append failing,
`gen_metadata_payload` returns -1 (`none`) — yet
`sysevent_dispatch_notification` still calls
`plugin_dispatch_notification` (line 734 never checks the builder's
return value), refuting the no-dispatch part.  Second, with only the
`reportingEntityName` append failing, the missing `goto err;` lets
execution fall through into the dangling `sequence` append, which
succeeds, and the build returns 0 (`some`), refuting the
returns-nonzero part. -/
theorem C2_counterexample :
    (gen_metadata_payload (fun k => k != "domain") 0 "boot failure" none (-1)
      "" "host1" 5 9).2 = none ∧
    (sysevent_dispatch_notification (fun k => k != "domain") 0 "boot failure"
      "host1" 5 9).2.2 = true ∧
    (gen_metadata_payload (fun k => k != "reportingEntityName") 0
      "boot failure" none (-1) "" "host1" 5 9).2.isSome = true := by
  exact ⟨rfl, rfl, rfl⟩

/-- C2 amended: a failing metadata-append step never stops the consumer:
the drain loop continues over the whole buffer, and the caller ignores the
builder's return value, so a notification is dispatched for that message
regardless.  The build returns -1 when the failing append is any of the
unconditionally attempted steps (`ves`, `domain`, `eventId`, `eventName`,
`lastEpochMicrosec`, `priority`, `version`, `syslogFields`,
`eventSourceHost`, `eventSourceType`, `syslogFieldsVersion`, `syslogMsg`,
`syslogProc`, `syslogTag`); but because of the missing `goto err;`, a
failing `reportingEntityName` (resp. `sourceName`) append instead falls
through into the dangling `sequence` (resp. `startEpochMicrosec`) append:
if that inner append succeeds the build returns 0 with the stray field in
the header, and only if the inner append also fails does the build return
-1. -/
theorem C2_build_failure_handling (ok : String → Bool) (event_id : Nat)
    (msg : String) (sev : Option String) (sev_num : Int)
    (process host : String) (timestamp nowUs : Nat) (keep : String → Bool)
    (r : Circbuf) (hh : r.head < r.maxLen) (ht : r.tail < r.maxLen) :
    (sysevent_dispatch_notification ok event_id msg host timestamp nowUs).2.2
      = true ∧
    (sysevent_read_loop keep r.maxLen r []).1 = { r with tail := r.head } ∧
    (∀ key ∈ ["ves", "domain", "eventId", "eventName", "lastEpochMicrosec",
        "priority", "version", "syslogFields", "eventSourceHost",
        "eventSourceType", "syslogFieldsVersion", "syslogMsg", "syslogProc",
        "syslogTag"],
      (gen_metadata_payload (fun k => k != key) event_id msg sev sev_num
        process host timestamp nowUs).2 = none) ∧
    ((gen_metadata_payload (fun k => k != "reportingEntityName") event_id msg
        sev sev_num process host timestamp nowUs).2.map
        (fun p => p.header.map Prod.fst))
      = some ["domain", "eventId", "eventName", "lastEpochMicrosec",
          "priority", "sequence", "sourceName", "version"] ∧
    ((gen_metadata_payload (fun k => k != "sourceName") event_id msg
        sev sev_num process host timestamp nowUs).2.map
        (fun p => p.header.map Prod.fst))
      = some ["domain", "eventId", "eventName", "lastEpochMicrosec",
          "priority", "reportingEntityName", "startEpochMicrosec",
          "version"] ∧
    (gen_metadata_payload
        (fun k => !(k == "reportingEntityName" || k == "sequence")) event_id
        msg sev sev_num process host timestamp nowUs).2 = none ∧
    (gen_metadata_payload
        (fun k => !(k == "sourceName" || k == "startEpochMicrosec")) event_id
        msg sev sev_num process host timestamp nowUs).2 = none := by
  refine ⟨rfl, sysevent_read_loop_tail_eq_head keep r.maxLen r [] hh ht
    (ringDist_lt_maxLen r hh ht), ?_, ?_, ?_, ?_, ?_⟩
  · intro key hk
    fin_cases hk <;> cases sev <;> rfl
  · cases sev <;> rfl
  · cases sev <;> rfl
  · cases sev <;> rfl
  · cases sev <;> rfl

/-- Witness for the amended C2 at concrete inputs and a concrete two-slot
ring: dispatch always happens, the drain completes, each unconditionally
attempted append's failure yields -1, and the two dangling-append
fall-throughs return 0 with the stray header field. -/
theorem C2_build_failure_handling_witness :
    ((⟨1, 0, 2, ["x", ""], [4, 0]⟩ : Circbuf).head < 2 ∧
     (⟨1, 0, 2, ["x", ""], [4, 0]⟩ : Circbuf).tail < 2) ∧
    ((sysevent_dispatch_notification (fun k => k != "domain") 0 "boot failure"
        "host1" 5 9).2.2 = true ∧
    (sysevent_read_loop (fun _ => true) 2 ⟨1, 0, 2, ["x", ""], [4, 0]⟩ []).1
        = ⟨1, 1, 2, ["x", ""], [4, 0]⟩ ∧
    (∀ key ∈ ["ves", "domain", "eventId", "eventName", "lastEpochMicrosec",
        "priority", "version", "syslogFields", "eventSourceHost",
        "eventSourceType", "syslogFieldsVersion", "syslogMsg", "syslogProc",
        "syslogTag"],
      (gen_metadata_payload (fun k => k != key) 0 "boot failure" none (-1)
        "proc" "host1" 5 9).2 = none) ∧
    ((gen_metadata_payload (fun k => k != "reportingEntityName") 0
        "boot failure" none (-1) "proc" "host1" 5 9).2.map
        (fun p => p.header.map Prod.fst))
      = some ["domain", "eventId", "eventName", "lastEpochMicrosec",
          "priority", "sequence", "sourceName", "version"] ∧
    ((gen_metadata_payload (fun k => k != "sourceName") 0
        "boot failure" none (-1) "proc" "host1" 5 9).2.map
        (fun p => p.header.map Prod.fst))
      = some ["domain", "eventId", "eventName", "lastEpochMicrosec",
          "priority", "reportingEntityName", "startEpochMicrosec",
          "version"] ∧
    (gen_metadata_payload
        (fun k => !(k == "reportingEntityName" || k == "sequence")) 0
        "boot failure" none (-1) "proc" "host1" 5 9).2 = none ∧
    (gen_metadata_payload
        (fun k => !(k == "sourceName" || k == "startEpochMicrosec")) 0
        "boot failure" none (-1) "proc" "host1" 5 9).2 = none) :=
  ⟨⟨by decide, by decide⟩,
   C2_build_failure_handling (fun k => k != "domain") 0 "boot failure" none
     (-1) "proc" "host1" 5 9 (fun _ => true) ⟨1, 0, 2, ["x", ""], [4, 0]⟩
     (by decide) (by decide)⟩

/-- C3: the claim says every fully successful build appends both the
`sequence` and the `startEpochMicrosec` header entries.  In the source the
`reportingEntityName` and `sourceName` appends are missing their
`goto err;`, so the `sequence` and `startEpochMicrosec` appends are the
bodies of the respective FAILURE branches: on a build where every append
succeeds, the header consists of exactly the eight fields below —
`sequence` and `startEpochMicrosec` are absent, contradicting the claim
(and the code's own comment structure, which clearly intends them to be
appended). -/
theorem C3_successful_build_lacks_sequence_fields (event_id : Nat)
    (msg : String) (sev : Option String) (sev_num : Int)
    (process host : String) (timestamp nowUs : Nat) :
    ((gen_metadata_payload (fun _ => true) event_id msg sev sev_num process
        host timestamp nowUs).2.map (fun p => p.header.map Prod.fst))
      = some ["domain", "eventId", "eventName", "lastEpochMicrosec",
          "priority", "reportingEntityName", "sourceName", "version"] ∧
    "sequence" ∉ ["domain", "eventId", "eventName", "lastEpochMicrosec",
          "priority", "reportingEntityName", "sourceName", "version"] ∧
    "startEpochMicrosec" ∉ ["domain", "eventId", "eventName",
          "lastEpochMicrosec", "priority", "reportingEntityName",
          "sourceName", "version"] := by
  refine ⟨?_, by decide, by decide⟩
  cases sev <;> rfl

/-- C8: with zero patterns (`monitor_all_messages == 1`) every message is
kept, and the dispatched sequence of a drain is the full drained sequence;
configuring one or more valid `RegexFilter` patterns clears
`monitor_all_messages` and builds the ignorelist with `invert = 1` and the
patterns in order, after which a message whose filter subject matches any
pattern is dropped and one matching none is kept; in general the
dispatched messages of a drain are exactly the drained messages the
`is_match` computation keeps. -/
theorem C8_filter_invert_semantics (mtch : String → String → Bool)
    (cfg0 : ConfigState) (p subject : String) (ps : List String)
    (il : Option Ignorelist) (keep : String → Bool) (fuel : Nat) (r : Circbuf)
    (h0 : cfg0.ignorelist = none) :
    read_is_match mtch true il subject = true ∧
    (sysevent_read_loop (read_is_match mtch true il) fuel r []).2
      = (sysevent_read_loop (fun _ => true) fuel r []).2 ∧
    ((p :: ps).foldl
        (fun cs q => (sysevent_config_add_regex_filter cs true q).1)
        cfg0).monitor_all_messages = false ∧
    ((p :: ps).foldl
        (fun cs q => (sysevent_config_add_regex_filter cs true q).1)
        cfg0).ignorelist = some { invert := true, patterns := p :: ps } ∧
    ((p :: ps).any (fun q => mtch q subject) = true →
      read_is_match mtch false
        (some { invert := true, patterns := p :: ps }) subject = false) ∧
    ((p :: ps).any (fun q => mtch q subject) = false →
      read_is_match mtch false
        (some { invert := true, patterns := p :: ps }) subject = true) ∧
    (sysevent_read_loop keep fuel r []).2
      = ((sysevent_read_loop (fun _ => true) fuel r []).2).filter
          (fun q => keep q.1) := by
  have hstep : (sysevent_config_add_regex_filter cfg0 true p).1
      = { cfg0 with
          ignorelist := some { invert := true, patterns := [p] }
          monitor_all_messages := false } := by
    simp [sysevent_config_add_regex_filter, h0]
  obtain ⟨f1, f2⟩ := regex_filter_fold ps
    { cfg0 with
      ignorelist := some { invert := true, patterns := [p] }
      monitor_all_messages := false }
    { invert := true, patterns := [p] } rfl rfl
  have hful : read_is_match mtch true il = fun _ => true := by
    funext s; rfl
  refine ⟨rfl, by rw [hful], ?_, ?_, ?_, ?_,
    sysevent_read_loop_filter keep fuel r⟩
  · simpa only [List.foldl_cons, hstep] using f2
  · rw [List.foldl_cons, hstep, f1]
    simp
  · intro h
    simp [read_is_match, ignorelist_match, h]
  · intro h
    simp [read_is_match, ignorelist_match, h]

/-- Witness for C8: pattern set containing only "DEBUG" (equality
matching), subject "DEBUG" matched and dropped, on a concrete two-slot
ring. -/
theorem C8_filter_invert_semantics_witness :
    initialConfig.ignorelist = none ∧
    (read_is_match (fun q s => q == s) true none "DEBUG" = true ∧
    (sysevent_read_loop (read_is_match (fun q s => q == s) true none) 2
        ⟨1, 0, 2, ["x", ""], [4, 0]⟩ []).2
      = (sysevent_read_loop (fun _ => true) 2
        ⟨1, 0, 2, ["x", ""], [4, 0]⟩ []).2 ∧
    ((["DEBUG"] : List String).foldl
        (fun cs q => (sysevent_config_add_regex_filter cs true q).1)
        initialConfig).monitor_all_messages = false ∧
    ((["DEBUG"] : List String).foldl
        (fun cs q => (sysevent_config_add_regex_filter cs true q).1)
        initialConfig).ignorelist
      = some { invert := true, patterns := ["DEBUG"] } ∧
    ((["DEBUG"] : List String).any (fun q => q == "DEBUG") = true →
      read_is_match (fun q s => q == s) false
        (some { invert := true, patterns := ["DEBUG"] }) "DEBUG" = false) ∧
    ((["DEBUG"] : List String).any (fun q => q == "DEBUG") = false →
      read_is_match (fun q s => q == s) false
        (some { invert := true, patterns := ["DEBUG"] }) "DEBUG" = true) ∧
    (sysevent_read_loop (fun s => s != "DEBUG") 2
        ⟨1, 0, 2, ["x", ""], [4, 0]⟩ []).2
      = ((sysevent_read_loop (fun _ => true) 2
        ⟨1, 0, 2, ["x", ""], [4, 0]⟩ []).2).filter (fun q => q.1 != "DEBUG")) :=
  ⟨rfl,
   C8_filter_invert_semantics (fun q s => q == s) initialConfig "DEBUG"
     "DEBUG" [] none (fun s => s != "DEBUG") 2 ⟨1, 0, 2, ["x", ""], [4, 0]⟩
     rfl⟩

end Sysevent
